import Mathlib

/-!
Verification of the school attendance tracker (store, edit session, exporters).

The TypeScript source keeps a nested object `classAttendanceData :
{ [grade]: { [date]: { present, absent } } }`, an edit buffer
`editingDailyAttendance`, a `selectedDate` string cursor and an
`isBulkEditing` flag.  We embed the object level as:

* `ClassGrade` — the fixed five-constructor enumeration from `types.ts`
  (its TS enum values are the display strings, modelled by `gradeLabel`);
* date maps as association lists `List (String × DailyAttendanceRecord)`
  with JavaScript object-spread update semantics (`setKey` keeps the
  position of an existing key, appends a fresh one);
* the top level as `ClassGrade → Option _` so that the presence or absence
  of a grade key is observable (needed for the load/merge invariant);
* JS numbers that reach the store as `Int` (they come from
  `parseInt(v, 10) || 0`, hence integers, possibly negative), and the
  percentage arithmetic idealised over `ℚ`.
-/

/-- The `ClassGrade` enum of `types.ts`. -/
inductive ClassGrade where
  | SIXTH
  | SEVENTH
  | EIGHTH
  | NINTH
  | TENTH
deriving DecidableEq, Repr

/-- The string value carried by each `ClassGrade` enum member
(`SIXTH = '6th Grade'`, ...). -/
def gradeLabel : ClassGrade → String
  | .SIXTH => "6th Grade"
  | .SEVENTH => "7th Grade"
  | .EIGHTH => "8th Grade"
  | .NINTH => "9th Grade"
  | .TENTH => "10th Grade"

/-- Position of a grade in the fixed enumeration `CLASS_GRADES`. -/
def gradeIdx : ClassGrade → Nat
  | .SIXTH => 0
  | .SEVENTH => 1
  | .EIGHTH => 2
  | .NINTH => 3
  | .TENTH => 4

/-- `CLASS_GRADES` from `constants.ts`: the fixed iteration order. -/
def CLASS_GRADES : List ClassGrade :=
  [.SIXTH, .SEVENTH, .EIGHTH, .NINTH, .TENTH]

/-- `CLASS_STRENGTHS` from `constants.ts`. -/
def CLASS_STRENGTHS : ClassGrade → Nat
  | .SIXTH => 19
  | .SEVENTH => 48
  | .EIGHTH => 47
  | .NINTH => 56
  | .TENTH => 66

/-- `DailyAttendanceRecord` from `types.ts`.  The counts are JS numbers;
every value written by the app comes from `parseInt(…) || 0`, so `Int`. -/
structure DailyAttendanceRecord where
  present : Int
  absent : Int
deriving DecidableEq, Repr

/-- A grade's date map, embedded as an association list in object key
order. -/
abbrev DateMap := List (String × DailyAttendanceRecord)

/-- `ClassAttendanceData` from `types.ts`: every grade key is optional. -/
abbrev ClassAttendanceData := ClassGrade → Option DateMap

/-- First-match lookup, the meaning of `obj[key]` on an association list. -/
def getKey {α : Type} : List (String × α) → String → Option α
  | [], _ => none
  | (k', v) :: t, k => if k' = k then some v else getKey t k

/-- JS object-spread update `{...m, [k]: v}`: an existing key keeps its
position and gets the new value, a fresh key is appended at the end.
(JS object keys are unique, so replacing the first occurrence is the
spread semantics on every list a JS object can denote.) -/
def setKey {α : Type} : List (String × α) → String → α → List (String × α)
  | [], k, v => [(k, v)]
  | (k', v') :: t, k, v =>
      if k' = k then (k, v) :: t else (k', v') :: setKey t k v

/-- Updating key `k` makes `k` map to the new value. -/
theorem getKey_setKey_self {α : Type} (l : List (String × α)) (k : String)
    (v : α) : getKey (setKey l k v) k = some v := by
  induction l with
  | nil => simp [setKey, getKey]
  | cons h t ih =>
    obtain ⟨k', v'⟩ := h
    by_cases hk : k' = k
    · simp [setKey, getKey, hk]
    · simp [setKey, getKey, hk, ih]

/-- Updating key `k` leaves every other key's value unchanged. -/
theorem getKey_setKey_ne {α : Type} (l : List (String × α)) (k k' : String)
    (v : α) (hne : k' ≠ k) : getKey (setKey l k v) k' = getKey l k' := by
  have hne' : ¬k = k' := fun hc => hne hc.symm
  induction l with
  | nil => simp [setKey, getKey, hne']
  | cons h t ih =>
    obtain ⟨k₀, v₀⟩ := h
    by_cases hk : k₀ = k
    · subst hk
      simp [setKey, getKey, hne']
    · by_cases hk' : k₀ = k'
      · subst hk'
        simp [setKey, getKey, hk, hne]
      · simp [setKey, getKey, hk, hk', ih]

/-- `getKey` succeeds exactly on the keys of the list. -/
theorem getKey_isSome_iff {α : Type} (l : List (String × α)) (k : String) :
    (getKey l k).isSome = true ↔ k ∈ l.map Prod.fst := by
  induction l with
  | nil => simp [getKey]
  | cons h t ih =>
    obtain ⟨k₀, v₀⟩ := h
    by_cases hk : k₀ = k
    · simp [getKey, hk]
    · have hk2 : ¬k = k₀ := fun hc => hk hc.symm
      simp [getKey, hk, hk2, ih]

/-- Optional-chaining lookup `classAttendanceData[grade]?.[date]`. -/
def lookupRecord (s : ClassAttendanceData) (g : ClassGrade) (d : String) :
    Option DailyAttendanceRecord :=
  (s g).bind (fun m => getKey m d)

/-- `INITIAL_CLASS_ATTENDANCE_DATA`: every grade mapped to an empty
date-map (built by `CLASS_GRADES.reduce`, which visits each grade once). -/
def INITIAL_CLASS_ATTENDANCE_DATA : ClassAttendanceData := fun _ => some []

/-- The three outcomes of reading `localStorage` in the `useState`
initializer: no stored data, a parsed snapshot (possibly missing some
grade keys), or a `JSON.parse` failure caught by the `try`. -/
inductive StorageReadResult where
  | noData
  | parsed (p : ClassGrade → Option DateMap)
  | parseFailure

/-- The `useState` initializer of `App`: stored data is merged over the
initial structure with `{...INITIAL_CLASS_ATTENDANCE_DATA, ...parsedData}`
(so the snapshot's grade keys win and missing grades are backfilled);
absence of data and parse failure both fall back to the initial value. -/
def loadClassAttendanceData : StorageReadResult → ClassAttendanceData
  | .noData => INITIAL_CLASS_ATTENDANCE_DATA
  | .parsed p => fun g =>
      match p g with
      | some m => some m
      | none => INITIAL_CLASS_ATTENDANCE_DATA g
  | .parseFailure => INITIAL_CLASS_ATTENDANCE_DATA

/-- The `setClassAttendanceData` updater inside
`handleUpdateDailyClassAttendance`: spread the grade's (possibly absent)
date map, set the `date` key, and spread the result back over the whole
structure under the `grade` key. -/
def handleUpdateDailyClassAttendance (s : ClassAttendanceData)
    (g : ClassGrade) (d : String) (p a : Int) : ClassAttendanceData :=
  fun g' =>
    if g' = g then some (setKey ((s g).getD []) d ⟨p, a⟩) else s g'

/-- Store states reachable through the code's only constructor (the
`useState` initializer) and its only mutator (the commit updater). -/
inductive ReachableData : ClassAttendanceData → Prop where
  | loaded (r : StorageReadResult) : ReachableData (loadClassAttendanceData r)
  | commit {s : ClassAttendanceData} (g : ClassGrade) (d : String)
      (p a : Int) : ReachableData s →
      ReachableData (handleUpdateDailyClassAttendance s g d p a)

theorem lookupRecord_eq_getKey (s : ClassAttendanceData) (g : ClassGrade)
    (d : String) : lookupRecord s g d = getKey ((s g).getD []) d := by
  unfold lookupRecord
  cases s g <;> simp [getKey]

/-- Reading back the freshly committed entry. -/
theorem lookupRecord_commit_self (s : ClassAttendanceData) (g : ClassGrade)
    (d : String) (p a : Int) :
    lookupRecord (handleUpdateDailyClassAttendance s g d p a) g d =
      some ⟨p, a⟩ := by
  unfold lookupRecord handleUpdateDailyClassAttendance
  simp [getKey_setKey_self]

/-- A commit leaves every other grade's entries untouched. -/
theorem lookupRecord_commit_ne_grade (s : ClassAttendanceData)
    (g g' : ClassGrade) (d d' : String) (p a : Int) (h : g' ≠ g) :
    lookupRecord (handleUpdateDailyClassAttendance s g d p a) g' d' =
      lookupRecord s g' d' := by
  unfold lookupRecord handleUpdateDailyClassAttendance
  simp [h]

/-- A commit leaves the same grade's entries at other dates untouched. -/
theorem lookupRecord_commit_ne_date (s : ClassAttendanceData)
    (g : ClassGrade) (d d' : String) (p a : Int) (h : d' ≠ d) :
    lookupRecord (handleUpdateDailyClassAttendance s g d p a) g d' =
      lookupRecord s g d' := by
  have heq := lookupRecord_eq_getKey s g d'
  unfold lookupRecord handleUpdateDailyClassAttendance
  simp only [if_pos trivial, if_true, Option.some_bind]
  rw [getKey_setKey_ne _ _ _ _ h, ← heq]
  rfl

/-- Gregorian leap-year test (what `Date` day arithmetic implements). -/
def isLeapYear (y : Nat) : Bool :=
  (y % 4 == 0 && y % 100 != 0) || y % 400 == 0

/-- Days in a Gregorian month. -/
def daysInMonth (y m : Nat) : Nat :=
  if m = 2 then (if isLeapYear y then 29 else 28)
  else if m = 4 || m = 6 || m = 9 || m = 11 then 30
  else 31

/-- Zero-pad to two digits, as `toISOString` prints months and days. -/
def pad2 (n : Nat) : String :=
  if n < 10 then "0" ++ toString n else toString n

/-- Re-serialize a date the way `toISOString().split('T')[0]` does. -/
def formatDate (y m d : Nat) : String :=
  toString y ++ "-" ++ pad2 m ++ "-" ++ pad2 d

/-- Parse a `YYYY-MM-DD` string (how `new Date(s)` reads the cursor). -/
def parseDate (s : String) : Option (Nat × Nat × Nat) :=
  match (s.splitOn "-").map String.toNat? with
  | [some y, some m, some d] => some (y, m, d)
  | _ => none

/-- Calendar successor, the effect of `d.setDate(d.getDate() + 1)`. -/
def nextDateTriple : Nat × Nat × Nat → Nat × Nat × Nat
  | (y, m, d) =>
      if d < daysInMonth y m then (y, m, d + 1)
      else if m < 12 then (y, m + 1, 1)
      else (y + 1, 1, 1)

/-- Calendar predecessor, the effect of `d.setDate(d.getDate() - 1)`. -/
def prevDateTriple : Nat × Nat × Nat → Nat × Nat × Nat
  | (y, m, d) =>
      if 1 < d then (y, m, d - 1)
      else if 1 < m then (y, m - 1, daysInMonth y (m - 1))
      else (y - 1, 12, 31)

/-- The `setSelectedDate` updater in `goToNextDay`, on well-formed
`YYYY-MM-DD` cursors (the only values the app ever stores there). -/
def nextDateStr (s : String) : String :=
  match parseDate s with
  | some t => let t' := nextDateTriple t; formatDate t'.1 t'.2.1 t'.2.2
  | none => s

/-- The `setSelectedDate` updater in `goToPreviousDay`. -/
def prevDateStr (s : String) : String :=
  match parseDate s with
  | some t => let t' := prevDateTriple t; formatDate t'.1 t'.2.1 t'.2.2
  | none => s

/-- The four `useState` cells of `App` that the claims talk about. -/
structure AppState where
  classAttendanceData : ClassAttendanceData
  selectedDate : String
  editingDailyAttendance : ClassGrade → Option DailyAttendanceRecord
  isBulkEditing : Bool

/-- `goToNextDay`: advance the cursor one day, drop the edit buffer,
leave bulk mode.  The store is not touched. -/
def goToNextDay (st : AppState) : AppState :=
  { st with
    selectedDate := nextDateStr st.selectedDate
    editingDailyAttendance := fun _ => none
    isBulkEditing := false }

/-- `goToPreviousDay`: retreat the cursor one day, drop the edit buffer,
leave bulk mode.  The store is not touched. -/
def goToPreviousDay (st : AppState) : AppState :=
  { st with
    selectedDate := prevDateStr st.selectedDate
    editingDailyAttendance := fun _ => none
    isBulkEditing := false }

/-- The `'present' | 'absent'` field selector of `handleEditInputChange`. -/
inductive EditField where
  | present
  | absent
deriving DecidableEq, Repr

/-- `{...currentEdit, [field]: value}`. -/
def setField (f : EditField) (v : Int) (r : DailyAttendanceRecord) :
    DailyAttendanceRecord :=
  match f with
  | .present => { r with present := v }
  | .absent => { r with absent := v }

/-- `handleEditInputChange`: update one field of the grade's buffered
pair, falling back to `{present: 0, absent: 0}` when the grade has no
buffer entry yet (`prev[grade] || { present: 0, absent: 0 }`). -/
def handleEditInputChange (g : ClassGrade) (f : EditField) (v : Int)
    (st : AppState) : AppState :=
  { st with
    editingDailyAttendance := fun g' =>
      if g' = g then
        some (setField f v ((st.editingDailyAttendance g).getD ⟨0, 0⟩))
      else st.editingDailyAttendance g' }

/-- `handleBulkEditClick`: set the bulk flag and seed the buffer, for
every grade of `CLASS_GRADES`, with the store's current record for the
selected date or `{present: 0, absent: 0}`. -/
def handleBulkEditClick (st : AppState) : AppState :=
  { st with
    isBulkEditing := true
    editingDailyAttendance :=
      CLASS_GRADES.foldl
        (fun acc g => fun g' =>
          if g' = g then
            some ((lookupRecord st.classAttendanceData g st.selectedDate).getD
              ⟨0, 0⟩)
          else acc g')
        (fun _ => none) }

/-- One step of the `CLASS_GRADES.forEach` loop in `handleSaveAllClick`:
commit the grade's buffered record if there is one.  (`buffer` is the
captured `editingDailyAttendance` value.) -/
def saveAllStep (buffer : ClassGrade → Option DailyAttendanceRecord)
    (d : String) (acc : ClassAttendanceData) (g : ClassGrade) :
    ClassAttendanceData :=
  match buffer g with
  | some r => handleUpdateDailyClassAttendance acc g d r.present r.absent
  | none => acc

/-- `handleSaveAllClick`: commit every buffered grade in `CLASS_GRADES`
order (the chained functional `setClassAttendanceData` updates compose
sequentially), then clear the buffer and leave bulk mode. -/
def handleSaveAllClick (st : AppState) : AppState :=
  { st with
    classAttendanceData :=
      CLASS_GRADES.foldl
        (saveAllStep st.editingDailyAttendance st.selectedDate)
        st.classAttendanceData
    editingDailyAttendance := fun _ => none
    isBulkEditing := false }

/-- `handleCancelBulkEditClick`: clear the buffer and leave bulk mode. -/
def handleCancelBulkEditClick (st : AppState) : AppState :=
  { st with
    editingDailyAttendance := fun _ => none
    isBulkEditing := false }

/-- The bulk seed puts the store's effective record in every grade's
buffer slot. -/
theorem handleBulkEditClick_editing (st : AppState) (g : ClassGrade) :
    (handleBulkEditClick st).editingDailyAttendance g =
      some ((lookupRecord st.classAttendanceData g st.selectedDate).getD
        ⟨0, 0⟩) := by
  cases g <;> rfl

/-- Grades outside the iterated list are untouched by the save-all loop. -/
theorem foldl_saveAllStep_not_mem (buffer : ClassGrade → Option DailyAttendanceRecord)
    (d : String) (L : List ClassGrade) (acc : ClassAttendanceData)
    (g : ClassGrade) (hg : g ∉ L) (d' : String) :
    lookupRecord (L.foldl (saveAllStep buffer d) acc) g d' =
      lookupRecord acc g d' := by
  induction L generalizing acc with
  | nil => rfl
  | cons h t ih =>
    have hgh : g ≠ h := fun hc => hg (hc ▸ List.mem_cons_self h t)
    have hgt : g ∉ t := fun hc => hg (List.mem_cons_of_mem h hc)
    rw [List.foldl_cons, ih _ hgt]
    unfold saveAllStep
    cases buffer h with
    | none => rfl
    | some r => exact lookupRecord_commit_ne_grade _ _ _ _ _ _ _ hgh

/-- After the save-all loop, a grade of the list holds its buffered
record at the loop's date (or its old entry when it had no buffer). -/
theorem foldl_saveAllStep_mem (buffer : ClassGrade → Option DailyAttendanceRecord)
    (d : String) (L : List ClassGrade) (acc : ClassAttendanceData)
    (g : ClassGrade) (hg : g ∈ L) (hnd : L.Nodup) :
    lookupRecord (L.foldl (saveAllStep buffer d) acc) g d =
      match buffer g with
      | some r => some r
      | none => lookupRecord acc g d := by
  induction L generalizing acc with
  | nil => cases hg
  | cons h t ih =>
    rw [List.foldl_cons]
    rcases List.mem_cons.mp hg with hgh | hgt
    · subst hgh
      have hgt : g ∉ t := (List.nodup_cons.mp hnd).1
      rw [foldl_saveAllStep_not_mem _ _ _ _ _ hgt]
      unfold saveAllStep
      cases buffer g with
      | none => rfl
      | some r => exact lookupRecord_commit_self _ _ _ _ _
    · rw [ih _ hgt (List.nodup_cons.mp hnd).2]
      cases hb : buffer g with
      | some r => rfl
      | none =>
        simp only
        unfold saveAllStep
        cases hbh : buffer h with
        | none => rfl
        | some r =>
          by_cases hgh : g = h
          · subst hgh
            rw [hb] at hbh
            cases hbh
          · exact lookupRecord_commit_ne_grade _ _ _ _ _ _ _ hgh

theorem CLASS_GRADES_nodup : CLASS_GRADES.Nodup := by decide

theorem mem_CLASS_GRADES (g : ClassGrade) : g ∈ CLASS_GRADES := by
  cases g <;> decide

/-- What the store holds at the selected date after `handleSaveAllClick`:
the buffered record if the grade had one, the old entry otherwise. -/
theorem handleSaveAllClick_lookup (st : AppState) (g : ClassGrade) :
    lookupRecord (handleSaveAllClick st).classAttendanceData g
        st.selectedDate =
      match st.editingDailyAttendance g with
      | some r => some r
      | none => lookupRecord st.classAttendanceData g st.selectedDate :=
  foldl_saveAllStep_mem _ _ _ _ _ (mem_CLASS_GRADES g) CLASS_GRADES_nodup

/-- A fold of `handleEditInputChange` applications only rewrites the edit
buffer: store, cursor and bulk flag are untouched, and so are the buffer
slots of grades none of the edits mention. -/
theorem foldl_editInputChange_state (A : ClassGrade)
    (edits : List (EditField × Int)) (st : AppState) :
    (edits.foldl (fun s e => handleEditInputChange A e.1 e.2 s) st).classAttendanceData
        = st.classAttendanceData ∧
    (edits.foldl (fun s e => handleEditInputChange A e.1 e.2 s) st).selectedDate
        = st.selectedDate ∧
    (edits.foldl (fun s e => handleEditInputChange A e.1 e.2 s) st).isBulkEditing
        = st.isBulkEditing ∧
    ∀ g, g ≠ A →
      (edits.foldl (fun s e => handleEditInputChange A e.1 e.2 s) st).editingDailyAttendance g
        = st.editingDailyAttendance g := by
  induction edits generalizing st with
  | nil => exact ⟨rfl, rfl, rfl, fun _ _ => rfl⟩
  | cons e t ih =>
    obtain ⟨h1, h2, h3, h4⟩ := ih (handleEditInputChange A e.1 e.2 st)
    refine ⟨h1, h2, h3, fun g hg => ?_⟩
    rw [List.foldl_cons] at *
    rw [h4 g hg]
    simp [handleEditInputChange, hg]

/-- A fold of edits to grade `A` keeps `A`'s buffer slot occupied. -/
theorem foldl_editInputChange_isSome (A : ClassGrade)
    (edits : List (EditField × Int)) (st : AppState)
    (h : (st.editingDailyAttendance A).isSome = true) :
    ((edits.foldl (fun s e => handleEditInputChange A e.1 e.2 s) st).editingDailyAttendance A).isSome = true := by
  induction edits generalizing st with
  | nil => exact h
  | cons e t ih =>
    rw [List.foldl_cons]
    exact ih _ (by simp [handleEditInputChange])

/-- `totalRecorded > 0 ? (present / totalRecorded) * 100 : 0` from
`exportToCsv`, with JS number arithmetic idealised over `ℚ`. -/
def dailyPresentPercentage (r : DailyAttendanceRecord) : ℚ :=
  if r.present + r.absent > 0 then
    ((r.present : ℚ) / ((r.present + r.absent : Int) : ℚ)) * 100
  else 0

/-- `totalRecorded > 0 ? (absent / totalRecorded) * 100 : 0` from
`exportToCsv`. -/
def dailyAbsentPercentage (r : DailyAttendanceRecord) : ℚ :=
  if r.present + r.absent > 0 then
    ((r.absent : ℚ) / ((r.present + r.absent : Int) : ℚ)) * 100
  else 0

/-- The same guarded present-percentage expression as it appears in
`exportToPdf`. -/
def pdfDailyPresentPercentage (r : DailyAttendanceRecord) : ℚ :=
  if r.present + r.absent > 0 then
    ((r.present : ℚ) / ((r.present + r.absent : Int) : ℚ)) * 100
  else 0

/-- The same guarded absent-percentage expression as it appears in
`exportToPdf`. -/
def pdfDailyAbsentPercentage (r : DailyAttendanceRecord) : ℚ :=
  if r.present + r.absent > 0 then
    ((r.absent : ℚ) / ((r.present + r.absent : Int) : ℚ)) * 100
  else 0

/-- Digits-and-dot rendering of a scaled-by-ten natural number. -/
def renderTenths (m : Nat) : String :=
  toString (m / 10) ++ "." ++ toString (m % 10)

/-- `Number.prototype.toFixed(1)`: the nearest multiple of `1/10`,
ties toward the larger value, printed with one digit after the dot.
The scaled integer is `⌊q * 10 + 1/2⌋`, computed on the numerator and
denominator so that it evaluates (see `toFixed1_scaled_eq_floor`). -/
def toFixed1 (q : ℚ) : String :=
  let n : Int := (q.num * 20 + (q.den : Int)) / (2 * (q.den : Int))
  if n < 0 then "-" ++ renderTenths n.natAbs else renderTenths n.toNat

/-- The integer `toFixed1` renders is exactly `⌊q * 10 + 1/2⌋`. -/
theorem toFixed1_scaled_eq_floor (q : ℚ) :
    (q.num * 20 + (q.den : Int)) / (2 * (q.den : Int)) = ⌊q * 10 + 1 / 2⌋ := by
  have hd : (0 : ℚ) < ((2 * q.den : ℕ) : ℚ) := by
    exact_mod_cast Nat.mul_pos (by norm_num) q.pos
  have h : q * 10 + 1 / 2 =
      ((q.num * 20 + (q.den : Int) : Int) : ℚ) / ((2 * q.den : ℕ) : ℚ) := by
    rw [eq_div_iff (ne_of_gt hd)]
    push_cast
    nth_rewrite 1 [← Rat.num_div_den q]
    have hden : ((q.den : ℚ)) ≠ 0 := by
      exact_mod_cast Nat.pos_iff_ne_zero.mp q.pos
    field_simp
    ring
  rw [h, Rat.floor_intCast_div_natCast]
  push_cast
  rfl

/-- The date-key collection of both exporters: every key of every
grade's date map (`if (classAttendanceData[grade])` only skips absent
grade keys — an empty object is truthy). -/
def exportDateKeys (s : ClassAttendanceData) : List String :=
  CLASS_GRADES.flatMap (fun g => ((s g).getD []).map Prod.fst)

/-- `Array.from(allDates).sort()`: the distinct recorded dates in
ascending lexicographic order (ISO dates, so chronological). -/
def exportSortedDates (s : ClassAttendanceData) : List String :=
  List.insertionSort (· ≤ ·) (exportDateKeys s).dedup

/-- One CSV data line of `exportToCsv` (template literal plus `\n`). -/
def csvRow (d : String) (g : ClassGrade) (r : DailyAttendanceRecord) :
    String :=
  d ++ "," ++ gradeLabel g ++ "," ++ toString (CLASS_STRENGTHS g) ++ "," ++
    toString r.present ++ "," ++ toString r.absent ++ "," ++
    toFixed1 (dailyPresentPercentage r) ++ "%," ++
    toFixed1 (dailyAbsentPercentage r) ++ "%\n"

/-- The data lines of `exportToCsv`: for each sorted date, each grade of
`CLASS_GRADES` that has a record contributes one row. -/
def csvDataRows (s : ClassAttendanceData) : List String :=
  (exportSortedDates s).flatMap (fun d =>
    CLASS_GRADES.filterMap (fun g => (lookupRecord s g d).map (csvRow d g)))

/-- The full string `exportToCsv` builds before URI-encoding it. -/
def csvContent (s : ClassAttendanceData) : String :=
  "data:text/csv;charset=utf-8," ++
    "Date,Class Grade,Total Strength,Present,Absent,Present Percentage,Absent Percentage\n" ++
    String.join (csvDataRows s)

/-- The `(date, grade)` pairs of the CSV data rows, in emission order. -/
def csvRowKeys (s : ClassAttendanceData) : List (String × ClassGrade) :=
  (exportSortedDates s).flatMap (fun d =>
    (CLASS_GRADES.filter (fun g => (lookupRecord s g d).isSome)).map
      (fun g => (d, g)))

/-- The `(date, grade)` pairs for which `exportToPdf` draws a data row:
its nested `sortedDates.forEach` / `CLASS_GRADES.forEach` loop draws one
row exactly when `classAttendanceData[grade]?.[date]` exists. -/
def pdfRowKeys (s : ClassAttendanceData) : List (String × ClassGrade) :=
  (exportSortedDates s).flatMap (fun d =>
    (CLASS_GRADES.filter (fun g => (lookupRecord s g d).isSome)).map
      (fun g => (d, g)))

/-- The emission order of the CSV rows: strictly later dates, or the same
date with a strictly later grade in the fixed enumeration. -/
def rowKeyLt (x y : String × ClassGrade) : Prop :=
  x.1 < y.1 ∨ (x.1 = y.1 ∧ gradeIdx x.2 < gradeIdx y.2)

/-- A sample store: only SIXTH has a record, on 2024-06-01. -/
def sampleStore : ClassAttendanceData := fun g =>
  if g = ClassGrade.SIXTH then some [("2024-06-01", ⟨15, 4⟩)] else some []

/-- A sample app state over `sampleStore` with one buffered edit. -/
def sampleEditingState : AppState :=
  { classAttendanceData := sampleStore
    selectedDate := "2024-06-01"
    editingDailyAttendance := fun g =>
      if g = ClassGrade.SIXTH then some ⟨7, 2⟩ else none
    isBulkEditing := false }

/-- C1: `handleUpdateDailyClassAttendance` returns a structure whose
`(g, d)` entry is `{present: p, absent: a}` while every other
`(grade, date)` entry is unchanged from the prior structure. -/
theorem commit_updates_single_entry (s : ClassAttendanceData)
    (g : ClassGrade) (d : String) (p a : Int) :
    lookupRecord (handleUpdateDailyClassAttendance s g d p a) g d =
        some ⟨p, a⟩ ∧
    ∀ g' d', ¬(g' = g ∧ d' = d) →
      lookupRecord (handleUpdateDailyClassAttendance s g d p a) g' d' =
        lookupRecord s g' d' := by
  refine ⟨lookupRecord_commit_self s g d p a, fun g' d' h => ?_⟩
  by_cases hg : g' = g
  · subst hg
    exact lookupRecord_commit_ne_date s g' d d' p a fun hd => h ⟨rfl, hd⟩
  · exact lookupRecord_commit_ne_grade s g g' d d' p a hg

/-- Witness for C1: committing a new date for SIXTH leaves its old
record in place. -/
theorem commit_updates_single_entry_witness :
    lookupRecord
        (handleUpdateDailyClassAttendance sampleStore ClassGrade.SIXTH
          "2024-06-02" 10 9)
        ClassGrade.SIXTH "2024-06-01" = some ⟨15, 4⟩ := by
  rw [(commit_updates_single_entry sampleStore ClassGrade.SIXTH "2024-06-02"
    10 9).2 ClassGrade.SIXTH "2024-06-01" (by decide)]
  decide

/-- C5: a record with `present = 0` and `absent = 0` yields exactly `0`
for both percentages in both exporters (the guarded formula never
divides by the zero total). -/
theorem zero_record_percentages_zero (r : DailyAttendanceRecord)
    (hp : r.present = 0) (ha : r.absent = 0) :
    dailyPresentPercentage r = 0 ∧ dailyAbsentPercentage r = 0 ∧
    pdfDailyPresentPercentage r = 0 ∧ pdfDailyAbsentPercentage r = 0 := by
  obtain ⟨p, a⟩ := r
  simp only at hp ha
  subst hp; subst ha
  refine ⟨?_, ?_, ?_, ?_⟩ <;>
    simp [dailyPresentPercentage, dailyAbsentPercentage,
      pdfDailyPresentPercentage, pdfDailyAbsentPercentage]

/-- Witness for C5 at the record `{present: 0, absent: 0}`. -/
theorem zero_record_percentages_zero_witness :
    dailyPresentPercentage ⟨0, 0⟩ = 0 ∧ dailyAbsentPercentage ⟨0, 0⟩ = 0 ∧
    pdfDailyPresentPercentage ⟨0, 0⟩ = 0 ∧
    pdfDailyAbsentPercentage ⟨0, 0⟩ = 0 :=
  zero_record_percentages_zero ⟨0, 0⟩ rfl rfl

theorem dailyPresentPercentage_15_4 :
    dailyPresentPercentage ⟨15, 4⟩ = mkRat 1500 19 := by
  unfold dailyPresentPercentage
  rw [if_pos (by decide), Rat.mkRat_eq_divInt, Rat.divInt_eq_div]
  norm_num

theorem dailyAbsentPercentage_15_4 :
    dailyAbsentPercentage ⟨15, 4⟩ = mkRat 400 19 := by
  unfold dailyAbsentPercentage
  rw [if_pos (by decide), Rat.mkRat_eq_divInt, Rat.divInt_eq_div]
  norm_num

/-- C6: the CSV exporter emits the literal header line first, and for a
store holding only `{SIXTH: {"2024-06-01": {present: 15, absent: 4}}}`
(strength 19) the single data row
`2024-06-01,6th Grade,19,15,4,78.9%,21.1%`. -/
theorem csv_header_and_scenario_row :
    csvContent sampleStore =
      "data:text/csv;charset=utf-8,Date,Class Grade,Total Strength,Present,Absent,Present Percentage,Absent Percentage\n2024-06-01,6th Grade,19,15,4,78.9%,21.1%\n" := by
  have hlist : csvDataRows sampleStore =
      [csvRow "2024-06-01" ClassGrade.SIXTH ⟨15, 4⟩] := rfl
  have hrow : csvRow "2024-06-01" ClassGrade.SIXTH ⟨15, 4⟩ =
      "2024-06-01,6th Grade,19,15,4,78.9%,21.1%\n" := by
    unfold csvRow
    rw [dailyPresentPercentage_15_4, dailyAbsentPercentage_15_4]
    decide
  unfold csvContent
  rw [hlist, hrow]
  decide

/-- C8: in every reachable store state — right after load with no data,
with a snapshot missing grades, after a parse failure, and after every
commit — every grade of the enumeration is a present key. -/
theorem every_grade_key_present (s : ClassAttendanceData)
    (h : ReachableData s) : ∀ g, (s g).isSome = true := by
  induction h with
  | loaded r =>
    intro g
    cases r with
    | noData => rfl
    | parsed p =>
      cases hp : p g <;>
        simp [loadClassAttendanceData, hp, INITIAL_CLASS_ATTENDANCE_DATA]
    | parseFailure => rfl
  | commit g d p a _ ih =>
    intro g'
    unfold handleUpdateDailyClassAttendance
    by_cases hg : g' = g
    · simp [hg]
    · simpa [hg] using ih g'

/-- Witness for C8: loading a snapshot that contains no grade at all
still yields a store with the SEVENTH key present. -/
theorem every_grade_key_present_witness :
    (loadClassAttendanceData (.parsed fun _ => none)
        ClassGrade.SEVENTH).isSome = true :=
  every_grade_key_present _ (.loaded (.parsed fun _ => none))
    ClassGrade.SEVENTH

/-- C9: with an uncommitted buffered edit for grade `G`, navigating to
the next or previous day clears the edit buffer, exits bulk mode and
leaves the store — in particular `G`'s entry on the original date —
unchanged. -/
theorem navigation_discards_edits (st : AppState) (G : ClassGrade)
    (e : DailyAttendanceRecord)
    (_h : st.editingDailyAttendance G = some e) :
    ((goToNextDay st).classAttendanceData = st.classAttendanceData ∧
     (goToNextDay st).editingDailyAttendance G = none ∧
     (goToNextDay st).isBulkEditing = false ∧
     lookupRecord (goToNextDay st).classAttendanceData G st.selectedDate =
       lookupRecord st.classAttendanceData G st.selectedDate) ∧
    ((goToPreviousDay st).classAttendanceData = st.classAttendanceData ∧
     (goToPreviousDay st).editingDailyAttendance G = none ∧
     (goToPreviousDay st).isBulkEditing = false ∧
     lookupRecord (goToPreviousDay st).classAttendanceData G
         st.selectedDate =
       lookupRecord st.classAttendanceData G st.selectedDate) :=
  ⟨⟨rfl, rfl, rfl, rfl⟩, ⟨rfl, rfl, rfl, rfl⟩⟩

/-- Witness for C9: the sample state has a buffered edit for SIXTH, and
navigation leaves its stored record for the original date unchanged. -/
theorem navigation_discards_edits_witness :
    (goToNextDay sampleEditingState).editingDailyAttendance
        ClassGrade.SIXTH = none ∧
    lookupRecord (goToNextDay sampleEditingState).classAttendanceData
        ClassGrade.SIXTH sampleEditingState.selectedDate = some ⟨15, 4⟩ := by
  have h := navigation_discards_edits sampleEditingState ClassGrade.SIXTH
    ⟨7, 2⟩ rfl
  refine ⟨h.1.2.1, ?_⟩
  rw [h.1.2.2.2]
  decide

/-- An app state over the empty initial store, cursor on 2024-06-01. -/
def freshState : AppState :=
  { classAttendanceData := INITIAL_CLASS_ATTENDANCE_DATA
    selectedDate := "2024-06-01"
    editingDailyAttendance := fun _ => none
    isBulkEditing := false }

/-- Counterexample to C2: typing 100 into SIXTH's present field (the
input pipeline is `parseInt(value, 10) || 0`, which passes 100 through)
and saving stores `present = 100`, far above `CLASS_STRENGTHS[SIXTH] =
19` — no clamping happens at edit-commit. -/
theorem clamping_at_commit_counterexample :
    lookupRecord
        (handleSaveAllClick
          (handleEditInputChange ClassGrade.SIXTH EditField.present 100
            (handleBulkEditClick freshState))).classAttendanceData
        ClassGrade.SIXTH "2024-06-01" = some ⟨100, 0⟩ ∧
    ¬((100 : Int) ≤ (CLASS_STRENGTHS ClassGrade.SIXTH : Int)) := by
  constructor
  · decide
  · decide

/-- C2 (amended): no clamping is applied on the edit-commit path — the
buffered field value is stored exactly as given (for every integer,
including values above the grade's strength and negative values), and
the commit operation stores its arguments verbatim. -/
theorem commit_stores_values_unclamped (st : AppState) (g : ClassGrade)
    (v : Int) :
    lookupRecord
        (handleSaveAllClick
          (handleEditInputChange g EditField.present v
            (handleBulkEditClick st))).classAttendanceData
        g st.selectedDate =
      some ⟨v, ((lookupRecord st.classAttendanceData g
        st.selectedDate).getD ⟨0, 0⟩).absent⟩ ∧
    ∀ s d p a,
      lookupRecord (handleUpdateDailyClassAttendance s g d p a) g d =
        some ⟨p, a⟩ := by
  constructor
  · have hedit : (handleEditInputChange g EditField.present v
        (handleBulkEditClick st)).editingDailyAttendance g =
        some (setField EditField.present v
          ((lookupRecord st.classAttendanceData g st.selectedDate).getD
            ⟨0, 0⟩)) := by
      simp [handleEditInputChange, handleBulkEditClick_editing]
    have h := handleSaveAllClick_lookup
      (handleEditInputChange g EditField.present v
        (handleBulkEditClick st)) g
    rw [hedit] at h
    simpa [setField] using h
  · intro s d p a
    exact lookupRecord_commit_self s g d p a

/-- The distinct sorted export dates are exactly the dates some grade
has a record for. -/
theorem mem_exportSortedDates (s : ClassAttendanceData) (d : String) :
    d ∈ exportSortedDates s ↔
      ∃ g, (lookupRecord s g d).isSome = true := by
  unfold exportSortedDates exportDateKeys
  rw [(List.perm_insertionSort _ _).mem_iff, List.mem_dedup]
  simp only [List.mem_flatMap]
  constructor
  · rintro ⟨g, _, hd⟩
    refine ⟨g, ?_⟩
    rw [lookupRecord_eq_getKey]
    exact (getKey_isSome_iff _ _).mpr hd
  · rintro ⟨g, hg⟩
    rw [lookupRecord_eq_getKey] at hg
    exact ⟨g, mem_CLASS_GRADES g, (getKey_isSome_iff _ _).mp hg⟩

/-- A `(date, grade)` pair gets a CSV data row exactly when the store
has a record there. -/
theorem mem_csvRowKeys (s : ClassAttendanceData) (d : String)
    (g : ClassGrade) :
    (d, g) ∈ csvRowKeys s ↔ (lookupRecord s g d).isSome = true := by
  unfold csvRowKeys
  simp only [List.mem_flatMap, List.mem_map, List.mem_filter]
  constructor
  · rintro ⟨d', _, g', ⟨_, hsome⟩, heq⟩
    obtain ⟨rfl, rfl⟩ := Prod.mk.injEq .. ▸ And.intro
      (congrArg Prod.fst heq) (congrArg Prod.snd heq)
    exact hsome
  · intro hsome
    exact ⟨d, (mem_exportSortedDates s d).mpr ⟨g, hsome⟩, g,
      ⟨mem_CLASS_GRADES g, hsome⟩, rfl⟩

/-- The PDF loop's row keys coincide with the CSV ones (textually the
same nested loops in the source). -/
theorem pdfRowKeys_eq_csvRowKeys : pdfRowKeys = csvRowKeys := rfl

/-- The edited grade's buffer slot after `handleEditInputChange`. -/
theorem handleEditInputChange_editing_self (g : ClassGrade) (f : EditField)
    (v : Int) (st : AppState) :
    (handleEditInputChange g f v st).editingDailyAttendance g =
      some (setField f v
        ((st.editingDailyAttendance g).getD ⟨0, 0⟩)) := by
  simp [handleEditInputChange]

/-- The bulk seed happens before any edit, so its cursor is the same. -/
theorem handleBulkEditClick_selectedDate (st : AppState) :
    (handleBulkEditClick st).selectedDate = st.selectedDate := rfl

/-- C10: entering bulk mode and immediately saving commits a record for
every grade on the selected date — a grade with no prior record gains an
explicit `{present: 0, absent: 0}` entry — and every grade then has a
data row in both the CSV and the PDF exporter. -/
theorem bulk_save_commits_all_grades (st : AppState) (g : ClassGrade) :
    lookupRecord
        (handleSaveAllClick (handleBulkEditClick st)).classAttendanceData
        g st.selectedDate =
      some ((lookupRecord st.classAttendanceData g st.selectedDate).getD
        ⟨0, 0⟩) ∧
    (st.selectedDate, g) ∈ csvRowKeys
      (handleSaveAllClick (handleBulkEditClick st)).classAttendanceData ∧
    (st.selectedDate, g) ∈ pdfRowKeys
      (handleSaveAllClick (handleBulkEditClick st)).classAttendanceData := by
  have hl := handleSaveAllClick_lookup (handleBulkEditClick st) g
  rw [handleBulkEditClick_editing st g,
    handleBulkEditClick_selectedDate st] at hl
  refine ⟨hl, ?_, ?_⟩
  · rw [mem_csvRowKeys, hl]
    rfl
  · rw [pdfRowKeys_eq_csvRowKeys, mem_csvRowKeys, hl]
    rfl

/-- Edits that do not mention grade `g` leave `g`'s buffer slot alone. -/
theorem foldl_editAny_frame (pre : List (ClassGrade × EditField × Int))
    (st : AppState) (g : ClassGrade) (hpre : ∀ e ∈ pre, e.1 ≠ g) :
    (pre.foldl (fun s e => handleEditInputChange e.1 e.2.1 e.2.2 s)
        st).editingDailyAttendance g = st.editingDailyAttendance g := by
  induction pre generalizing st with
  | nil => rfl
  | cons e t ih =>
    rw [List.foldl_cons,
      ih _ fun e' he' => hpre e' (List.mem_cons_of_mem e he')]
    have hne : g ≠ e.1 :=
      fun hc => hpre e (List.mem_cons_self e t) hc.symm
    simp [handleEditInputChange, hne]

/-- C4: in an edit session (seeded on bulk entry, the only way the UI
opens the inputs), the first field edit touching grade `g` — after any
edits to other grades — replaces only the edited field of `g`'s buffered
pair, the untouched field holding the store's current value for the
selected date (zero when the store has no record there); other grades'
buffer slots are untouched by the edit. -/
theorem first_edit_defaults_untouched_field (st : AppState)
    (g : ClassGrade) (pre : List (ClassGrade × EditField × Int))
    (hpre : ∀ e ∈ pre, e.1 ≠ g) (f : EditField) (v : Int) :
    (handleEditInputChange g f v
        (pre.foldl (fun s e => handleEditInputChange e.1 e.2.1 e.2.2 s)
          (handleBulkEditClick st))).editingDailyAttendance g =
      some (setField f v
        ((lookupRecord st.classAttendanceData g st.selectedDate).getD
          ⟨0, 0⟩)) ∧
    ∀ g', g' ≠ g →
      (handleEditInputChange g f v
          (pre.foldl (fun s e => handleEditInputChange e.1 e.2.1 e.2.2 s)
            (handleBulkEditClick st))).editingDailyAttendance g' =
        (pre.foldl (fun s e => handleEditInputChange e.1 e.2.1 e.2.2 s)
          (handleBulkEditClick st)).editingDailyAttendance g' := by
  constructor
  · have hbuf := foldl_editAny_frame pre (handleBulkEditClick st) g hpre
    rw [handleBulkEditClick_editing st g] at hbuf
    rw [handleEditInputChange_editing_self, hbuf]
    rfl
  · intro g' hg'
    simp [handleEditInputChange, hg']

/-- Witness for C4: on the sample store (SIXTH has `{15, 4}` on the
selected date), editing SEVENTH first and then SIXTH's absent field
buffers `{present: 15, absent: 9}` for SIXTH: the untouched present
field defaulted to the store's value 15. -/
theorem first_edit_defaults_untouched_field_witness :
    (handleEditInputChange ClassGrade.SIXTH EditField.absent 9
        ([((ClassGrade.SEVENTH : ClassGrade), (EditField.present : EditField), (30 : Int))].foldl
          (fun s e => handleEditInputChange e.1 e.2.1 e.2.2 s)
          (handleBulkEditClick sampleEditingState))).editingDailyAttendance
      ClassGrade.SIXTH = some ⟨15, 9⟩ := by
  rw [(first_edit_defaults_untouched_field sampleEditingState
    ClassGrade.SIXTH
    [((ClassGrade.SEVENTH : ClassGrade), (EditField.present : EditField), (30 : Int))]
    (by decide) EditField.absent 9).1]
  decide

/-- C3: bulk-edit, edits to a single grade `A`, then save-all: every
other grade's value on the selected date is what it was before (an
existing entry is re-committed verbatim), and `A`'s entry becomes the
edited buffer content. -/
theorem bulk_save_preserves_untouched_grades (st : AppState)
    (A : ClassGrade) (edits : List (EditField × Int)) :
    (∀ g, g ≠ A →
      (lookupRecord
          (handleSaveAllClick
            (edits.foldl (fun s e => handleEditInputChange A e.1 e.2 s)
              (handleBulkEditClick st))).classAttendanceData
          g st.selectedDate).getD ⟨0, 0⟩ =
        (lookupRecord st.classAttendanceData g st.selectedDate).getD
          ⟨0, 0⟩ ∧
      ∀ r, lookupRecord st.classAttendanceData g st.selectedDate = some r →
        lookupRecord
            (handleSaveAllClick
              (edits.foldl (fun s e => handleEditInputChange A e.1 e.2 s)
                (handleBulkEditClick st))).classAttendanceData
            g st.selectedDate = some r) ∧
    lookupRecord
        (handleSaveAllClick
          (edits.foldl (fun s e => handleEditInputChange A e.1 e.2 s)
            (handleBulkEditClick st))).classAttendanceData
        A st.selectedDate =
      (edits.foldl (fun s e => handleEditInputChange A e.1 e.2 s)
        (handleBulkEditClick st)).editingDailyAttendance A := by
  obtain ⟨hdata, hdate, hbulk, hframe⟩ :=
    foldl_editInputChange_state A edits (handleBulkEditClick st)
  constructor
  · intro g hg
    have hbuf : (edits.foldl (fun s e => handleEditInputChange A e.1 e.2 s)
        (handleBulkEditClick st)).editingDailyAttendance g =
        some ((lookupRecord st.classAttendanceData g st.selectedDate).getD
          ⟨0, 0⟩) := by
      rw [hframe g hg, handleBulkEditClick_editing st g]
    have hl := handleSaveAllClick_lookup
      (edits.foldl (fun s e => handleEditInputChange A e.1 e.2 s)
        (handleBulkEditClick st)) g
    rw [hbuf, hdate, handleBulkEditClick_selectedDate st] at hl
    constructor
    · rw [hl]
      rfl
    · intro r hr
      rw [hl, hr]
      rfl
  · have hsome : ((edits.foldl (fun s e => handleEditInputChange A e.1 e.2 s)
        (handleBulkEditClick st)).editingDailyAttendance A).isSome = true := by
      refine foldl_editInputChange_isSome A edits (handleBulkEditClick st) ?_
      rw [handleBulkEditClick_editing st A]
      rfl
    obtain ⟨r, hr⟩ := Option.isSome_iff_exists.mp hsome
    have hl := handleSaveAllClick_lookup
      (edits.foldl (fun s e => handleEditInputChange A e.1 e.2 s)
        (handleBulkEditClick st)) A
    rw [hr, hdate, handleBulkEditClick_selectedDate st] at hl
    rw [hl, hr]

/-- Witness for C3: with only SIXTH holding `{15, 4}`, editing TENTH to
30 present and saving all leaves SIXTH's entry at `{15, 4}`. -/
theorem bulk_save_preserves_untouched_grades_witness :
    lookupRecord
        (handleSaveAllClick
          ([((EditField.present : EditField), (30 : Int))].foldl
            (fun s e => handleEditInputChange ClassGrade.TENTH e.1 e.2 s)
            (handleBulkEditClick sampleEditingState))).classAttendanceData
        ClassGrade.SIXTH sampleEditingState.selectedDate =
      some ⟨15, 4⟩ := by
  refine ((bulk_save_preserves_untouched_grades sampleEditingState
    ClassGrade.TENTH
    [((EditField.present : EditField), (30 : Int))]).1 ClassGrade.SIXTH
    (by decide)).2 ⟨15, 4⟩ ?_
  decide

theorem list_filterMap_map_eq {α β : Type}
    (o : α → Option DailyAttendanceRecord)
    (f : α → DailyAttendanceRecord → β) (L : List α) :
    L.filterMap (fun g => (o g).map (f g)) =
      (L.filter (fun g => (o g).isSome)).map
        (fun g => f g ((o g).getD ⟨0, 0⟩)) := by
  induction L with
  | nil => rfl
  | cons h t ih =>
    cases ho : o h <;>
      simp [List.filterMap_cons, List.filter_cons, ho, ih]

theorem CLASS_GRADES_pairwise_idx :
    CLASS_GRADES.Pairwise (fun a b => gradeIdx a < gradeIdx b) := by decide

theorem rowKeyLt_ne (a b : String × ClassGrade) (h : rowKeyLt a b) :
    a ≠ b := by
  obtain ⟨d1, g1⟩ := a
  obtain ⟨d2, g2⟩ := b
  rcases h with h | ⟨hd, hg⟩ <;> intro heq <;> cases heq
  · exact lt_irrefl _ h
  · exact lt_irrefl _ hg

/-- C7: the CSV exporter emits exactly one data row per `(date, grade)`
pair holding a record — the row list is the image of the key list, a key
is listed iff the store has a record there, and the keys are strictly
increasing (dates ascending, the fixed grade order within a date), hence
duplicate-free. -/
theorem csv_one_row_per_record_sorted (s : ClassAttendanceData) :
    csvDataRows s = (csvRowKeys s).map
        (fun p => csvRow p.1 p.2 ((lookupRecord s p.2 p.1).getD ⟨0, 0⟩)) ∧
    (∀ d g, (d, g) ∈ csvRowKeys s ↔ (lookupRecord s g d).isSome = true) ∧
    (csvRowKeys s).Pairwise rowKeyLt ∧
    (csvRowKeys s).Nodup := by
  have hpair : (csvRowKeys s).Pairwise rowKeyLt := by
    unfold csvRowKeys
    rw [List.pairwise_flatMap]
    constructor
    · intro d _
      rw [List.pairwise_map]
      exact (List.Pairwise.sublist (List.filter_sublist _)
        CLASS_GRADES_pairwise_idx).imp fun h => Or.inr ⟨rfl, h⟩
    · have hsorted : (exportSortedDates s).Sorted (· < ·) := by
        refine List.Sorted.lt_of_le (List.sorted_insertionSort _ _) ?_
        exact ((List.perm_insertionSort _ _).nodup_iff).mpr
          (List.nodup_dedup _)
      refine hsorted.imp ?_
      intro d1 d2 h12 x hx y hy
      obtain ⟨g1, _, rfl⟩ := List.mem_map.mp hx
      obtain ⟨g2, _, rfl⟩ := List.mem_map.mp hy
      exact Or.inl h12
  refine ⟨?_, fun d g => mem_csvRowKeys s d g, hpair,
    hpair.imp fun h => rowKeyLt_ne _ _ h⟩
  have hinner : ∀ d : String,
      CLASS_GRADES.filterMap (fun g => (lookupRecord s g d).map (csvRow d g)) =
        ((CLASS_GRADES.filter (fun g => (lookupRecord s g d).isSome)).map
          (fun g => (d, g))).map
          (fun p => csvRow p.1 p.2 ((lookupRecord s p.2 p.1).getD ⟨0, 0⟩)) := by
    intro d
    rw [List.map_map]
    exact list_filterMap_map_eq (fun g => lookupRecord s g d)
      (fun g r => csvRow d g r) CLASS_GRADES
  unfold csvDataRows csvRowKeys
  rw [List.map_flatMap]
  exact congrArg _ (funext hinner)
